import Mathlib

/-
Verification of the prisbevakaren price-tracking core against its design
description.  The definitions below are a shallow embedding of
src/price_scraper.py (class PriceScraper) and src/update_prices.py
(update_all_prices).  Python floats are modelled as rationals; Python
Optional results are modelled as Option; a caught exception that makes a
Python routine fall through to returning None is modelled as a none
result, and an exception escaping a helper into an enclosing
try/except is modelled explicitly where the code distinguishes it.
-/

namespace Prisbevakaren

/-! ## Small string helpers (model of Python substring and digit testing) -/

/-- Model of Python string containment: needle occurs as a prefix of hay. -/
def startsL : List Char → List Char → Bool
  | [], _ => true
  | _ :: _, [] => false
  | a :: as, b :: bs => a = b && startsL as bs

/-- Model of the Python substring test (needle in hay). -/
def containsL : List Char → List Char → Bool
  | needle, [] => needle.isEmpty
  | needle, c :: rest => startsL needle (c :: rest) || containsL needle rest

/-- Substring test on String, model of the Python expression needle in hay. -/
def containsStr (hay needle : String) : Bool :=
  containsL needle.toList hay.toList

/-- A for loop with early return: the first result the body accepts. -/
def firstSome (f : α → Option β) : List α → Option β
  | [] => none
  | a :: rest =>
    match f a with
    | some b => some b
    | none => firstSome f rest

/-- Numeric value of a digit string, most significant digit first. -/
def digitsToNat (l : List Char) : Nat :=
  l.foldl (fun a c => 10 * a + (c.toNat - Char.toNat (Char.ofNat 48))) 0

/-- Value of an integer digit run plus a fractional digit run, as produced by
Python float applied to a decimal literal.  Stated with mkRat so that the
kernel can evaluate it on concrete inputs. -/
def ratOfParts (ip fp : List Char) : ℚ :=
  mkRat (Int.ofNat (digitsToNat ip * 10 ^ fp.length + digitsToNat fp)) (10 ^ fp.length)

/-! ## Number Normalizer: PriceScraper._extract_number -/

/-- Two characters spelling the currency token kr, case-insensitively. -/
def isKr (a b : Char) : Bool := a.toLower = 'k' && b.toLower = 'r'

/-- Three characters spelling the currency token SEK, case-insensitively. -/
def isSek (a b c : Char) : Bool :=
  a.toLower = 's' && b.toLower = 'e' && c.toLower = 'k'

/-- One-character currency symbols removed by the normalizer. -/
def isCurrencySym (a : Char) : Bool := a = '$' || a = '€' || a = '£'

/-- Model of re.sub removing kr, SEK and the currency symbols,
case-insensitively, scanning left to right (price_scraper.py line 440).
The Nat argument is a recursion budget only: every step consumes at
least one character, so any budget at least the length of the list gives
the same result (lemma stripCurrencyAux_fuel below). -/
def stripCurrencyAux : Nat → List Char → List Char
  | 0, l => l
  | _ + 1, [] => []
  | _ + 1, [a] => if isCurrencySym a then [] else [a]
  | fuel + 1, [a, b] =>
    if isKr a b then []
    else if isCurrencySym a then stripCurrencyAux fuel [b]
    else a :: stripCurrencyAux fuel [b]
  | fuel + 1, a :: b :: c :: rest3 =>
    if isKr a b then stripCurrencyAux fuel (c :: rest3)
    else if isSek a b c then stripCurrencyAux fuel rest3
    else if isCurrencySym a then stripCurrencyAux fuel (b :: c :: rest3)
    else a :: stripCurrencyAux fuel (b :: c :: rest3)

/-- The currency-token removal pass of the normalizer. -/
def stripCurrency (l : List Char) : List Char :=
  stripCurrencyAux l.length l

/-- Comma replaced by decimal point (price_scraper.py line 443). -/
def commaToDot (l : List Char) : List Char :=
  l.map fun c => if c = ',' then '.' else c

/-- First match of the pattern digits, optional dot, more digits
(price_scraper.py line 446), converted by Python float.  The float
conversion of such a match never fails, so the ValueError branch at line
452 is unreachable. -/
def scanFirstNumber : List Char → Option ℚ
  | [] => none
  | c :: rest =>
    if c.isDigit then
      let ip := List.takeWhile Char.isDigit (c :: rest)
      let rest1 := List.dropWhile Char.isDigit (c :: rest)
      match rest1 with
      | '.' :: rest2 => some (ratOfParts ip (List.takeWhile Char.isDigit rest2))
      | _ => some (ratOfParts ip [])
    else scanFirstNumber rest

/-- PriceScraper._extract_number (price_scraper.py lines 423-455): strip
currency tokens, replace commas by dots, parse the first digit run with an
optional fractional part. -/
def extract_number (s : String) : Option ℚ :=
  scanFirstNumber (commaToDot (stripCurrency s.toList))

/-- Model of the Python truthiness guard applied to an optional price:
both None and a zero price are falsy and are dropped. -/
def truthyQ : Option ℚ → Option ℚ
  | none => none
  | some q => if q = 0 then none else some q

/-! ## Model of the Python builtin float applied to a string

Used by the scraper for values taken from JSON documents and meta tags.
Modelled over plain decimal literals with an optional sign and
surrounding spaces; exponent forms, underscores and infinities do not
occur in any input considered here. -/

/-- Parse an unsigned decimal literal: digits, or digits dot digits,
with at least one digit overall.  none models a ValueError. -/
def pyFloatCore (l : List Char) : Option ℚ :=
  let ip := List.takeWhile Char.isDigit l
  let rest := List.dropWhile Char.isDigit l
  match rest with
  | [] => if ip.isEmpty then none else some (ratOfParts ip [])
  | '.' :: rest2 =>
    let fp := List.takeWhile Char.isDigit rest2
    let rest3 := List.dropWhile Char.isDigit rest2
    if rest3.isEmpty then
      if ip.isEmpty && fp.isEmpty then none else some (ratOfParts ip fp)
    else none
  | _ => none

/-- Model of the Python float builtin on a string. -/
def pyFloat (s : String) : Option ℚ :=
  let l := (((s.toList.dropWhile (fun c => c = ' ')).reverse.dropWhile
      (fun c => c = ' ')).reverse)
  match l with
  | '-' :: rest => (pyFloatCore rest).map (fun q => -q)
  | '+' :: rest => pyFloatCore rest
  | _ => pyFloatCore l

/-! ## JSON model

JSON documents as parsed by Python json.loads.  Objects are association
lists in document order (Python dict keys are unique and iterate in
insertion order).  Booleans do not occur in any input considered by the
claims and are omitted from the model. -/

inductive Json : Type where
  | num (q : ℚ)
  | str (s : String)
  | null
  | arr (items : List Json)
  | obj (fields : List (String × Json))

/-- Dictionary lookup, model of the Python test key in data followed by
data indexing. -/
def alookup : List (String × Json) → String → Option Json
  | [], _ => none
  | (k, v) :: rest, key => if k = key then some v else alookup rest key

/-- Model of the Python builtin float applied to a JSON value: numbers
pass through, strings are parsed, anything else raises a TypeError
(modelled as none where the call site catches it). -/
def floatOfJson : Json → Option ℚ
  | Json.num q => some q
  | Json.str s => pyFloat s
  | _ => none

/-! ## Structured-data strategy: PriceScraper._extract_from_jsonld and
PriceScraper._extract_price_from_jsonld_object (lines 228-280)

The outer Option layer of jsonldObjPrice models an exception escaping
_extract_price_from_jsonld_object into the except clause of
_extract_from_jsonld, which then abandons the whole strategy. -/

/-- Processing of one offers list entry (lines 273-278).  A non-dict
entry follows Python semantics: membership on a string or list never
finds a price (the indexing TypeError is caught inside the try), while
membership on a number or null raises an uncaught TypeError. -/
def firstOfferPrice : Json → Option (Option ℚ)
  | Json.obj okvs =>
    match alookup okvs "price" with
    | some v =>
      match floatOfJson v with
      | some q => some (some q)
      | none => some none
    | none => some none
  | Json.str _ => some none
  | Json.arr _ => some none
  | _ => none

/-- The offers part of _extract_price_from_jsonld_object (lines 264-278). -/
def offersPrice (kvs : List (String × Json)) : Option (Option ℚ) :=
  match alookup kvs "offers" with
  | some (Json.obj okvs) =>
    match alookup okvs "price" with
    | some v =>
      match floatOfJson v with
      | some q => some (some q)
      | none => some none
    | none => some none
  | some (Json.arr (first :: _)) => firstOfferPrice first
  | some (Json.arr []) => some none
  | some _ => some none
  | none => some none

/-- True exactly when the JSON value is the given string literal; model
of Python equality used by list membership. -/
def isStrLit (t : String) : Json → Bool
  | Json.str s => s = t
  | _ => false

/-- PriceScraper._extract_price_from_jsonld_object (lines 252-280).
Result none models an uncaught TypeError (membership test on a number
or null, or indexing a non-dict offers holder outside a try). -/
def jsonldObjPrice : Json → Option (Option ℚ)
  | Json.obj kvs =>
    match alookup kvs "price" with
    | some v =>
      match floatOfJson v with
      | some q => some (some q)
      | none => offersPrice kvs
    | none => offersPrice kvs
  | Json.str s => if containsStr s "offers" then none else some none
  | Json.arr items => if items.any (isStrLit "offers") then none else some none
  | _ => none

/-- The acceptance step applied to one extraction result, the pattern
price = ...; if price: return price of the source: an exception passes
through, a truthy price is accepted, anything else lets the enclosing
loop continue. -/
def acceptTruthy : Option (Option ℚ) → Option (Option ℚ)
  | none => none
  | some r =>
    match truthyQ r with
    | some p => some (some p)
    | none => some none

/-- The loop over the entries of a top-level JSON-LD array
(lines 237-241): first truthy price wins, an exception aborts. -/
def jsonldScanItems : List Json → Option (Option ℚ)
  | [] => some none
  | item :: rest =>
    match acceptTruthy (jsonldObjPrice item) with
    | none => none
    | some (some p) => some (some p)
    | some none => jsonldScanItems rest

/-- Handling of one parsed JSON-LD script block (lines 236-245): a list
is scanned entry by entry, anything else goes through the single-object
extraction with the truthiness acceptance step. -/
def jsonldScanOne (d : Json) : Option (Option ℚ) :=
  match d with
  | Json.arr items => jsonldScanItems items
  | _ => acceptTruthy (jsonldObjPrice d)

/-- The loop over all JSON-LD script blocks (lines 231-247).  A none
entry is a script without a string or with a JSON decode error, which
the code skips; an exception inside the loop makes the whole strategy
return None through the outer except clause. -/
def jsonldScanScripts : List (Option Json) → Option ℚ
  | [] => none
  | none :: rest => jsonldScanScripts rest
  | some d :: rest =>
    match jsonldScanOne d with
    | none => none
    | some (some p) => some p
    | some none => jsonldScanScripts rest

/-- PriceScraper._extract_from_jsonld (lines 228-250). -/
def extract_from_jsonld (scripts : List (Option Json)) : Option ℚ :=
  jsonldScanScripts scripts

/-! ## Embedded application-state strategy:
PriceScraper._find_price_in_dict (lines 168-226) and
PriceScraper._extract_from_nextjs_data (lines 129-166) -/

/-- The allowlist of price field names (lines 176-190), in source order. -/
def priceKeys : List String :=
  ["price", "currentPrice", "sellingPrice", "salePrice", "priceValue",
   "unitPrice", "amount", "value", "priceAmount", "retailPrice",
   "displayPrice", "listPrice", "regularPrice"]

/-- Nested price object handling (lines 202-209): try the subkeys
amount, value, price in that order; a float conversion failure on one
subkey is caught and the next subkey is tried. -/
def nestedSubkeyPrice (kvs : List (String × Json)) : Option ℚ :=
  firstSome (fun sk =>
    match alookup kvs sk with
    | some v => floatOfJson v
    | none => none) ["amount", "value", "price"]

/-- Handling of one matched price key (lines 194-211): a number is
returned as is, a string goes through the normalizer and is kept only
if truthy, a dict is probed for the subkeys; other types fall through
to the next key. -/
def keyMatchValue : Json → Option ℚ
  | Json.num q => some q
  | Json.str s => truthyQ (extract_number s)
  | Json.obj kvs => nestedSubkeyPrice kvs
  | _ => none

/-- The scan of the price-key allowlist at one level (lines 192-211). -/
def keyScan (kvs : List (String × Json)) : Option ℚ :=
  firstSome (fun k =>
    match alookup kvs k with
    | some v => keyMatchValue v
    | none => none) priceKeys

/-- PriceScraper._find_price_in_dict with an explicit recursion budget.
Every recursive call in the source increases depth by one and the
source returns None as soon as depth exceeds 10, so any budget of at
least 12 - depth computes the source function (lemma
findPriceAux_fuel below); the budget only makes the recursion
structural.  Per the source: the key allowlist is scanned first, a hit
(even a zero price) is returned at once; otherwise nested dicts are
searched, and list entries (first 20 per list, dicts only) are searched
while depth is below 5; recursive results pass a truthiness guard, so a
zero found deeper is discarded and the search continues. -/
def findPriceAux : Nat → List (String × Json) → Nat → Option ℚ
  | 0, _, _ => none
  | Nat.succ fuel, kvs, depth =>
    if depth > 10 then none
    else
      match keyScan kvs with
      | some q => some q
      | none =>
        firstSome (fun kv =>
          match kv.2 with
          | Json.obj kvs2 => truthyQ (findPriceAux fuel kvs2 (depth + 1))
          | Json.arr items =>
            if depth < 5 then
              firstSome (fun item =>
                match item with
                | Json.obj kvs2 => truthyQ (findPriceAux fuel kvs2 (depth + 1))
                | _ => none) (items.take 20)
            else none
          | _ => none) kvs

/-- PriceScraper._find_price_in_dict (lines 168-226). -/
def find_price_in_dict (kvs : List (String × Json)) (depth : Nat) : Option ℚ :=
  findPriceAux (12 - depth) kvs depth

/-- PriceScraper._extract_from_nextjs_data (lines 129-166): the ordered
candidate JSON blobs found by the framework marker patterns, each either
parsed or a decode failure (none, skipped).  A parsed blob that is not
an object makes the recursive search raise (list and string blobs reach
data.items(), a number raises at the membership test), the outer except
clause then ends the whole strategy with None. -/
def extract_from_nextjs_data : List (Option Json) → Option ℚ
  | [] => none
  | none :: rest => extract_from_nextjs_data rest
  | some (Json.obj kvs) :: rest =>
    match truthyQ (find_price_in_dict kvs 0) with
    | some p => some p
    | none => extract_from_nextjs_data rest
  | some _ :: _ => none

/-! ## Page model and the selector-based scrapers

soup.find calls on attribute selectors and the meta tag, and the
fragmented-span walk of _scrape_willys, read the page through
BeautifulSoup.  The page is external input, so the model carries the
outcome of each such query: the stripped text of the first element
matching each selector, the content attribute of the price meta tag,
and, for the span walk, the ordered list of span-text lists collected
for each per-unit marker and each of its up to five ancestor levels. -/

/-- The attribute selectors the scrapers use. -/
inductive Selector : Type where
  | classExact (name : String)
  | itempropPrice
  | classRegexPriceI
  | idRegexPriceI
  | dataTestid (name : String)
deriving DecidableEq

/-- One fetched page as observed through the queries the code makes. -/
structure Soup : Type where
  jsonldScripts : List (Option Json)
  embeddedBlobs : List (Option Json)
  findAttrText : Selector → Option String
  metaPriceContent : Option String
  stContainers : List (List String)

/-- A fragment containing a per-unit marker is skipped
(price_scraper.py line 336). -/
def isUnitSuffix (t : String) : Bool :=
  containsStr t "/st" || containsStr t "/kg" || containsStr t "/l"

/-- Python str.isdigit: nonempty and all digits. -/
def pyIsDigit (t : String) : Bool :=
  !t.toList.isEmpty && t.toList.all Char.isDigit

/-- Fragment filter of _scrape_willys (lines 333-340): no unit suffix,
purely numeric, one to four digits. -/
def willysKeepFragment (t : String) : Bool :=
  !(isUnitSuffix t) && pyIsDigit t
    && decide (1 ≤ t.toList.length) && decide (t.toList.length ≤ 4)

/-- The numeric fragments kept from one container. -/
def willysNumbers (texts : List String) : List String :=
  texts.filter willysKeepFragment

/-- Python float applied to the string whole.decimal (line 355). -/
def combineWD (w d : String) : ℚ :=
  ratOfParts w.toList d.toList

/-- The adjacent-pair loop of _scrape_willys (lines 347-359): skip a
pair whose whole part is 0 or 00, otherwise accept the first combined
value in the range [1, 10000). -/
def willysScanPairs : List String → Option ℚ
  | [] => none
  | w :: rest =>
    match rest with
    | [] => none
    | d :: _ =>
      if w = "0" ∨ w = "00" then willysScanPairs rest
      else
        let p := combineWD w d
        if 1 ≤ p ∧ p < 10000 then some p else willysScanPairs rest

/-- Processing of one span container (lines 329-361): keep the numeric
fragments and, when at least two remain, run the pair loop. -/
def willysCombine (texts : List String) : Option ℚ :=
  let numbers := willysNumbers texts
  if 2 ≤ numbers.length then willysScanPairs numbers else none

/-- The walk over all per-unit markers and ancestor containers
(lines 319-363), first hit wins. -/
def willysContainers : List (List String) → Option ℚ
  | [] => none
  | texts :: rest =>
    match willysCombine texts with
    | some p => some p
    | none => willysContainers rest

/-- Selector loop common to the scrapers: first element whose text
normalizes to a truthy price wins. -/
def selectorScan (soup : Soup) (sels : List Selector) : Option ℚ :=
  firstSome (fun sel =>
    match soup.findAttrText sel with
    | some txt => truthyQ (extract_number txt)
    | none => none) sels

/-- Meta-tag fallback at the end of _scrape_jula and _scrape_willys
(lines 302-306, 382-386): a truthy content attribute is converted with
the Python float builtin and returned directly, without a truthiness
guard; a conversion failure is caught by the enclosing except clause
and the scraper returns None. -/
def metaPriceTail (soup : Soup) : Option ℚ :=
  match soup.metaPriceContent with
  | some c => if c = "" then none else pyFloat c
  | none => none

/-- Selector order of _scrape_jula (lines 286-291). -/
def julaSelectors : List Selector :=
  [Selector.classExact "price", Selector.classExact "product-price",
   Selector.itempropPrice, Selector.classRegexPriceI]

/-- PriceScraper._scrape_jula (lines 282-311). -/
def scrape_jula (soup : Soup) : Option ℚ :=
  match selectorScan soup julaSelectors with
  | some p => some p
  | none => metaPriceTail soup

/-- Selector order of the _scrape_willys fallback (lines 366-371). -/
def willysSelectors : List Selector :=
  [Selector.classRegexPriceI, Selector.dataTestid "product-price",
   Selector.classExact "product-price", Selector.itempropPrice]

/-- PriceScraper._scrape_willys (lines 313-391). -/
def scrape_willys (soup : Soup) : Option ℚ :=
  match willysContainers soup.stContainers with
  | some p => some p
  | none =>
    match selectorScan soup willysSelectors with
    | some p => some p
    | none => metaPriceTail soup

/-- Selector order of _scrape_generic (lines 404-408). -/
def genericSelectors : List Selector :=
  [Selector.classRegexPriceI, Selector.itempropPrice,
   Selector.idRegexPriceI]

/-- PriceScraper._scrape_generic (lines 393-421).  The meta tag comes
first here and its float conversion is unguarded: content 0 yields the
price 0, and a conversion failure aborts the whole scraper through the
enclosing except clause before any selector is tried. -/
def scrape_generic (soup : Soup) : Option ℚ :=
  match soup.metaPriceContent with
  | some c =>
    if c = "" then selectorScan soup genericSelectors
    else
      match pyFloat c with
      | some q => some q
      | none => none
  | none => selectorScan soup genericSelectors

/-! ## Fetch pipeline: PriceScraper.fetch_price (lines 81-127) -/

/-- The external world of one fetch_price call: whether the scraper was
built with browser use enabled, what the rendering capability returns
(none when unavailable, erroring, or returning empty content), and what
the static HTTP fetch returns (none when the request raises or the
status is not a success, which the outer except turns into None). -/
structure ScrapeEnv : Type where
  useBrowser : Bool
  renderedPage : Option Soup
  staticPage : Option Soup

/-- The static branch of fetch_price (lines 100-123): JSON-LD scan,
then embedded-state scan, then the domain heuristic (jula.se and
willys.se are registered), then the generic scraper.  The two scans are
guarded by truthiness; the domain scrapers are returned directly. -/
def staticPipeline (page : Option Soup) (domain : String) : Option ℚ :=
  match page with
  | none => none
  | some soup =>
    match truthyQ (extract_from_jsonld soup.jsonldScripts) with
    | some p => some p
    | none =>
      match truthyQ (extract_from_nextjs_data soup.embeddedBlobs) with
      | some p => some p
      | none =>
        if containsStr domain "jula.se" then scrape_jula soup
        else if containsStr domain "willys.se" then scrape_willys soup
        else scrape_generic soup

/-- PriceScraper.fetch_price (lines 81-127).  The domain argument is
the network location of the URL.  A willys.se domain with browser use
enabled fetches a rendered page and, when content comes back, returns
the result of _scrape_willys on it directly; otherwise the static
branch runs. -/
def fetch_price (env : ScrapeEnv) (domain : String) : Option ℚ :=
  if containsStr domain "willys.se" && env.useBrowser then
    match env.renderedPage with
    | some soup => scrape_willys soup
    | none => staticPipeline env.staticPage domain
  else staticPipeline env.staticPage domain

/-! ## Tracked items and the batch orchestrator:
update_prices.update_all_prices (update_prices.py lines 16-147)

The URL dataclass of src/app.py carries id and group_id as well; the
update path never reads or writes them, so the model keeps the fields
it touches.  Timestamps are carried as opaque strings; the run
timestamp is a parameter standing for datetime.now(timezone.utc)
followed by isoformat. -/

structure Item : Type where
  url : String
  current_price : Option ℚ
  previous_price : Option ℚ
  last_price_change : Option String
deriving DecidableEq

/-- The change test of the diff engine (update_prices.py line 98):
Python compares the Optional stored price against the float, so None is
always different and two floats compare by exact value equality. -/
def priceChanged (it : Item) (newPrice : ℚ) : Bool :=
  it.current_price ≠ some newPrice

/-- The mutation of the diff engine (update_prices.py lines 100-113):
on a change, previous_price takes the old current_price, current_price
takes the extracted value and last_price_change takes the run
timestamp, all together; otherwise the item is returned untouched. -/
def applyPrice (now : String) (it : Item) (newPrice : ℚ) : Item :=
  if priceChanged it newPrice then
    { it with
      previous_price := it.current_price
      current_price := some newPrice
      last_price_change := some now }
  else it

/-- Aggregate state of one run, mirroring the accumulator variables of
update_all_prices (lines 76-78).  The source logs the unchanged branch
(line 113) without keeping a counter; the model counts that branch so
the outcome is observable.  itemsOut is the stored record of each item
after the run, in input order: only changed items are rewritten
(line 109), all others pass through untouched. -/
structure BatchState : Type where
  updated : Nat
  failed : Nat
  unchangedCount : Nat
  failedUrls : List String
  itemsOut : List Item
deriving DecidableEq

/-- The per-item body of the orchestrator loop (lines 82-118).  The
fetch argument is the observed result of scraper.fetch_price for each
URL; the source catches every exception inside fetch_price and returns
None, so a fetch failure, an extraction miss and an in-loop exception
all reach the orchestrator as None and take the failure branch
(lines 89-93 and 115-118). -/
def stepItem (now : String) (fetch : String → Option ℚ) (s : BatchState)
    (it : Item) : BatchState :=
  match fetch it.url with
  | none =>
    { s with
      failed := s.failed + 1
      failedUrls := s.failedUrls ++ [it.url]
      itemsOut := s.itemsOut ++ [it] }
  | some p =>
    if priceChanged it p then
      { s with
        updated := s.updated + 1
        itemsOut := s.itemsOut ++ [applyPrice now it p] }
    else
      { s with
        unchangedCount := s.unchangedCount + 1
        itemsOut := s.itemsOut ++ [it] }

/-- The loop of update_all_prices over all tracked items
(lines 82-118), processed strictly in order from empty accumulators. -/
def runBatch (now : String) (fetch : String → Option ℚ)
    (items : List Item) : BatchState :=
  items.foldl (stepItem now fetch) ⟨0, 0, 0, [], []⟩

/-- The data of one summary notification (lines 128-143): the message
carries the total, the succeeded count (total minus failed), the failed
count, the first ten failed URLs, and how many further failed URLs were
omitted. -/
structure Summary : Type where
  total : Nat
  succeeded : Nat
  failed : Nat
  listedFailedUrls : List String
  omittedCount : Nat
deriving DecidableEq

/-- The notification decision of update_all_prices (lines 128-143): a
summary is posted exactly when at least one failure occurred and a
Slack client is configured; the failed URL list in it is capped at the
first 10 entries with the count of the rest. -/
def summaryNotifications (slackConfigured : Bool) (total : Nat)
    (s : BatchState) : List Summary :=
  if 0 < s.failed ∧ slackConfigured = true then
    [{ total := total
       succeeded := total - s.failed
       failed := s.failed
       listedFailedUrls := s.failedUrls.take 10
       omittedCount :=
         if 10 < s.failedUrls.length then s.failedUrls.length - 10 else 0 }]
  else []

/-- One whole run of update_all_prices: the loop over all items
followed by the notification decision, with total taken as the item
count read before the loop (line 75). -/
def runJob (slackConfigured : Bool) (now : String)
    (fetch : String → Option ℚ) (items : List Item) :
    BatchState × List Summary :=
  let st := runBatch now fetch items
  (st, summaryNotifications slackConfigured items.length st)

/-- An item whose fetch_price observation is None: a transport failure
or an extraction miss, indistinguishable to the orchestrator. -/
def fetchMissed (fetch : String → Option ℚ) (it : Item) : Bool :=
  (fetch it.url).isNone

/-- What one item looks like in the store after the run. -/
def processedItem (now : String) (fetch : String → Option ℚ)
    (it : Item) : Item :=
  match fetch it.url with
  | none => it
  | some p => applyPrice now it p

/-- An item that takes the updated branch of the loop. -/
def outcomeUpdated (fetch : String → Option ℚ) (it : Item) : Bool :=
  match fetch it.url with
  | none => false
  | some p => priceChanged it p

/-- An item that takes the unchanged branch of the loop. -/
def outcomeUnchanged (fetch : String → Option ℚ) (it : Item) : Bool :=
  match fetch it.url with
  | none => false
  | some p => !priceChanged it p

/-! ## Concrete fixtures used by the claims -/

/-- A chain of singleton objects: nestK k j places j below k wrapper
levels. -/
def nestK : Nat → Json → Json
  | 0, j => j
  | k + 1, j => Json.obj [("a", nestK k j)]

/-- A chain of singleton objects with no price key anywhere. -/
def deepChain : Nat → Json
  | 0 => Json.num 1
  | n + 1 => Json.obj [("b", deepChain n)]

/-- A page on which every query comes back empty: the fetch can succeed
while every extraction strategy misses. -/
def soupEmptyPage : Soup :=
  { jsonldScripts := [], embeddedBlobs := [], findAttrText := fun _ => none,
    metaPriceContent := none, stContainers := [] }

/-- A world where the static fetch succeeds and returns the empty page:
fetch_price then returns None through an extraction miss, not a
transport failure. -/
def envExtractionMiss : ScrapeEnv :=
  { useBrowser := true, renderedPage := none, staticPage := some soupEmptyPage }

/-- Tracked items for the three-item batch scenario. -/
def itemA : Item :=
  { url := "https://a.example/p", current_price := some 50,
    previous_price := none, last_price_change := none }

def itemB : Item :=
  { url := "https://b.example/p", current_price := some 200,
    previous_price := none, last_price_change := none }

def itemC : Item :=
  { url := "https://c.example/p", current_price := some 100,
    previous_price := none, last_price_change := none }

/-- Fetch observations of the scenario: the fetch of A throws, which
fetch_price turns into None; B extracts its stored price; C extracts
a different price. -/
def fetchABC : String → Option ℚ := fun u =>
  if u = "https://a.example/p" then none
  else if u = "https://b.example/p" then some 200
  else if u = "https://c.example/p" then some 120
  else none

/-- A rendered willys page whose structured-data block holds a price
while the dedicated heuristic finds nothing. -/
def soupRendered : Soup :=
  { jsonldScripts := [some (Json.obj [("price", Json.num (mkRat 499 10))])],
    embeddedBlobs := [], findAttrText := fun _ => none,
    metaPriceContent := none, stContainers := [] }

/-- A world where the rendering capability returns soupRendered. -/
def envRendered : ScrapeEnv :=
  { useBrowser := true, renderedPage := some soupRendered, staticPage := none }

/-- A willys page whose unit-suffix container carries the fragments 0,
22, 90 and the marker itself. -/
def soupWillys : Soup :=
  { jsonldScripts := [], embeddedBlobs := [], findAttrText := fun _ => none,
    metaPriceContent := none, stContainers := [["0", "22", "90", "/st"]] }

/-- A page whose price meta tag carries the content 0 and on which
everything else misses. -/
def soupMetaZero : Soup :=
  { jsonldScripts := [], embeddedBlobs := [], findAttrText := fun _ => none,
    metaPriceContent := some "0", stContainers := [] }

/-- A world where the static fetch succeeds with soupMetaZero. -/
def envMetaZero : ScrapeEnv :=
  { useBrowser := true, renderedPage := none, staticPage := some soupMetaZero }

/-! ## General lemmas -/

theorem firstSome_congr (f g : α → Option β) :
    ∀ (l : List α), (∀ x ∈ l, f x = g x) → firstSome f l = firstSome g l := by
  intro l
  induction l with
  | nil => intro _; rfl
  | cons a rest ih =>
    intro h
    have ha := h a (List.mem_cons_self a rest)
    have hrest := ih fun x hx => h x (List.mem_cons_of_mem a hx)
    simp only [firstSome, ha, hrest]

theorem truthyQ_eq_some {r : Option ℚ} {p : ℚ} (h : truthyQ r = some p) :
    r = some p ∧ p ≠ 0 := by
  cases r with
  | none => simp [truthyQ] at h
  | some q =>
    simp only [truthyQ] at h
    by_cases hq : q = 0
    · rw [if_pos hq] at h
      exact absurd h (by simp)
    · rw [if_neg hq] at h
      injection h with h
      subst h
      exact ⟨rfl, hq⟩

/-- The recursion budget of stripCurrencyAux is inert: any budget at
least the length of the input gives the same output, so stripCurrency
computes the unbounded scan of the source regex substitution. -/
theorem stripCurrencyAux_fuel :
    ∀ (f1 f2 : Nat) (l : List Char), l.length ≤ f1 → l.length ≤ f2 →
      stripCurrencyAux f1 l = stripCurrencyAux f2 l := by
  intro f1
  induction f1 with
  | zero =>
    intro f2 l h1 _
    have hl : l = [] := List.eq_nil_of_length_eq_zero (Nat.le_zero.mp h1)
    subst hl
    cases f2 <;> rfl
  | succ g1 ih =>
    intro f2 l h1 h2
    cases f2 with
    | zero =>
      have hl : l = [] := List.eq_nil_of_length_eq_zero (Nat.le_zero.mp h2)
      subst hl
      rfl
    | succ g2 =>
      rcases l with _ | ⟨a, _ | ⟨b, _ | ⟨c, rest3⟩⟩⟩
      · rfl
      · rfl
      · simp only [List.length_cons, List.length_nil] at h1 h2
        simp only [stripCurrencyAux]
        by_cases hkr : isKr a b = true
        · rw [if_pos hkr, if_pos hkr]
        · rw [if_neg hkr, if_neg hkr]
          by_cases hs : isCurrencySym a = true
          · rw [if_pos hs, if_pos hs]
            exact ih g2 [b] (by simp; omega) (by simp; omega)
          · rw [if_neg hs, if_neg hs]
            exact congrArg (a :: ·) (ih g2 [b] (by simp; omega) (by simp; omega))
      · simp only [List.length_cons, List.length_nil] at h1 h2
        simp only [stripCurrencyAux]
        by_cases hkr : isKr a b = true
        · rw [if_pos hkr, if_pos hkr]
          exact ih g2 (c :: rest3) (by simp; omega) (by simp; omega)
        · rw [if_neg hkr, if_neg hkr]
          by_cases hsek : isSek a b c = true
          · rw [if_pos hsek, if_pos hsek]
            exact ih g2 rest3 (by omega) (by omega)
          · rw [if_neg hsek, if_neg hsek]
            by_cases hs : isCurrencySym a = true
            · rw [if_pos hs, if_pos hs]
              exact ih g2 (b :: c :: rest3) (by simp; omega) (by simp; omega)
            · rw [if_neg hs, if_neg hs]
              exact congrArg (a :: ·)
                (ih g2 (b :: c :: rest3) (by simp; omega) (by simp; omega))

/-- The recursion budget of findPriceAux is inert: any budget of at
least 12 - depth gives the same result, because the source returns
None as soon as depth exceeds 10 and every recursive call increases
depth by one.  In particular the search terminates with the same
answer regardless of the size of the JSON structure. -/
theorem findPriceAux_fuel :
    ∀ (f1 f2 : Nat) (kvs : List (String × Json)) (depth : Nat),
      12 - depth ≤ f1 → 12 - depth ≤ f2 →
      findPriceAux f1 kvs depth = findPriceAux f2 kvs depth := by
  intro f1
  induction f1 with
  | zero =>
    intro f2 kvs depth h1 _
    have hd : depth > 10 := by omega
    cases f2 with
    | zero => rfl
    | succ g2 => simp [findPriceAux, hd]
  | succ g1 ih =>
    intro f2 kvs depth h1 h2
    cases f2 with
    | zero =>
      have hd : depth > 10 := by omega
      simp [findPriceAux, hd]
    | succ g2 =>
      by_cases hd : depth > 10
      · simp [findPriceAux, hd]
      · simp only [findPriceAux, if_neg hd]
        cases hk : keyScan kvs with
        | some q => rfl
        | none =>
          apply firstSome_congr
          intro kv _
          rcases kv with ⟨k, v⟩
          cases v with
          | num q => rfl
          | str s => rfl
          | null => rfl
          | obj kvs2 =>
            simp only
            rw [ih g2 kvs2 (depth + 1) (by omega) (by omega)]
          | arr items =>
            simp only
            by_cases h5 : depth < 5
            · rw [if_pos h5, if_pos h5]
              apply firstSome_congr
              intro item _
              cases item with
              | obj kvs2 =>
                simp only
                rw [ih g2 kvs2 (depth + 1) (by omega) (by omega)]
              | num q => rfl
              | str s => rfl
              | null => rfl
              | arr items2 => rfl
            · rw [if_neg h5, if_neg h5]

/-- A price accepted by the truthiness step is nonzero. -/
theorem acceptTruthy_ne_zero {ro : Option (Option ℚ)} {p : ℚ}
    (h : acceptTruthy ro = some (some p)) : p ≠ 0 := by
  cases ro with
  | none => simp [acceptTruthy] at h
  | some r =>
    cases ht : truthyQ r with
    | none => simp [acceptTruthy, ht] at h
    | some q =>
      simp only [acceptTruthy, ht, Option.some.injEq] at h
      subst h
      exact (truthyQ_eq_some ht).2

/-- Every price returned by the JSON-LD array loop passed the
truthiness guard, so it is nonzero. -/
theorem jsonldScanItems_ne_zero :
    ∀ (items : List Json) (p : ℚ),
      jsonldScanItems items = some (some p) → p ≠ 0 := by
  intro items
  induction items with
  | nil => intro p h; simp [jsonldScanItems] at h
  | cons item rest ih =>
    intro p h
    simp only [jsonldScanItems] at h
    cases ha : acceptTruthy (jsonldObjPrice item) with
    | none => rw [ha] at h; exact absurd h (by simp)
    | some r =>
      cases r with
      | some q =>
        rw [ha] at h
        simp only [Option.some.injEq] at h
        subst h
        exact acceptTruthy_ne_zero ha
      | none => rw [ha] at h; exact ih p h

/-- Any price produced from one script block is nonzero. -/
theorem jsonldScanOne_ne_zero :
    ∀ (d : Json) (p : ℚ), jsonldScanOne d = some (some p) → p ≠ 0 := by
  intro d p h
  cases d with
  | arr items =>
    simp only [jsonldScanOne] at h
    exact jsonldScanItems_ne_zero items p h
  | num v => simp only [jsonldScanOne] at h; exact acceptTruthy_ne_zero h
  | str s => simp only [jsonldScanOne] at h; exact acceptTruthy_ne_zero h
  | null => simp only [jsonldScanOne] at h; exact acceptTruthy_ne_zero h
  | obj kvs => simp only [jsonldScanOne] at h; exact acceptTruthy_ne_zero h

/-- The structured-data strategy never returns a zero price: every
return in _extract_from_jsonld is behind an if price check. -/
theorem extract_from_jsonld_ne_zero :
    ∀ (scripts : List (Option Json)) (q : ℚ),
      extract_from_jsonld scripts = some q → q ≠ 0 := by
  intro scripts
  induction scripts with
  | nil => intro q h; simp [extract_from_jsonld, jsonldScanScripts] at h
  | cons head rest ih =>
    intro q h
    simp only [extract_from_jsonld] at h ih
    cases head with
    | none => exact ih q h
    | some d =>
      simp only [jsonldScanScripts] at h
      cases hone : jsonldScanOne d with
      | none => rw [hone] at h; exact absurd h (by simp)
      | some r =>
        cases r with
        | some p =>
          rw [hone] at h
          simp only [Option.some.injEq] at h
          subst h
          exact jsonldScanOne_ne_zero d _ hone
        | none => rw [hone] at h; exact ih q h

/-- The embedded-state strategy never returns a zero price: every
return in _extract_from_nextjs_data is behind an if price check. -/
theorem extract_from_nextjs_data_ne_zero :
    ∀ (blobs : List (Option Json)) (q : ℚ),
      extract_from_nextjs_data blobs = some q → q ≠ 0 := by
  intro blobs
  induction blobs with
  | nil => intro q h; simp [extract_from_nextjs_data] at h
  | cons head rest ih =>
    intro q h
    cases head with
    | none => exact ih q h
    | some d =>
      cases d with
      | obj kvs =>
        simp only [extract_from_nextjs_data] at h
        cases ht : truthyQ (find_price_in_dict kvs 0) with
        | some p =>
          rw [ht] at h
          simp only [Option.some.injEq] at h
          subst h
          exact (truthyQ_eq_some ht).2
        | none => rw [ht] at h; exact ih q h
      | num v => exact absurd h (by simp [extract_from_nextjs_data])
      | str s => exact absurd h (by simp [extract_from_nextjs_data])
      | null => exact absurd h (by simp [extract_from_nextjs_data])
      | arr items => exact absurd h (by simp [extract_from_nextjs_data])

/-- A character list without digits yields no number. -/
theorem scanFirstNumber_no_digit :
    ∀ (l : List Char), (∀ c ∈ l, c.isDigit = false) → scanFirstNumber l = none := by
  intro l
  induction l with
  | nil => intro _; rfl
  | cons c rest ih =>
    intro h
    have hc := h c (List.mem_cons_self c rest)
    simp only [scanFirstNumber, hc]
    exact ih fun x hx => h x (List.mem_cons_of_mem c hx)

/-- Currency stripping only removes characters. -/
theorem mem_stripCurrencyAux :
    ∀ (f : Nat) (l : List Char) (c : Char), c ∈ stripCurrencyAux f l → c ∈ l := by
  intro f
  induction f with
  | zero => intro l c h; exact h
  | succ g ih =>
    intro l c h
    rcases l with _ | ⟨a, _ | ⟨b, _ | ⟨d, rest3⟩⟩⟩
    · exact h
    · simp only [stripCurrencyAux] at h
      by_cases hs : isCurrencySym a = true
      · rw [if_pos hs] at h; exact absurd h (by simp)
      · rw [if_neg hs] at h; exact h
    · simp only [stripCurrencyAux] at h
      by_cases hkr : isKr a b = true
      · rw [if_pos hkr] at h; exact absurd h (by simp)
      · rw [if_neg hkr] at h
        by_cases hs : isCurrencySym a = true
        · rw [if_pos hs] at h
          exact List.mem_cons_of_mem a (ih [b] c h)
        · rw [if_neg hs] at h
          rcases List.mem_cons.mp h with h | h
          · exact h ▸ List.mem_cons_self a [b]
          · exact List.mem_cons_of_mem a (ih [b] c h)
    · simp only [stripCurrencyAux] at h
      by_cases hkr : isKr a b = true
      · rw [if_pos hkr] at h
        exact List.mem_cons_of_mem a (List.mem_cons_of_mem b (ih (d :: rest3) c h))
      · rw [if_neg hkr] at h
        by_cases hsek : isSek a b d = true
        · rw [if_pos hsek] at h
          exact List.mem_cons_of_mem a (List.mem_cons_of_mem b
            (List.mem_cons_of_mem d (ih rest3 c h)))
        · rw [if_neg hsek] at h
          by_cases hs : isCurrencySym a = true
          · rw [if_pos hs] at h
            exact List.mem_cons_of_mem a (ih (b :: d :: rest3) c h)
          · rw [if_neg hs] at h
            rcases List.mem_cons.mp h with h | h
            · exact h ▸ List.mem_cons_self a (b :: d :: rest3)
            · exact List.mem_cons_of_mem a (ih (b :: d :: rest3) c h)

/-- If a text has no digit at all, the normalizer returns none:
stripping removes characters, the comma replacement introduces only
dots, and the number scan needs a digit to start. -/
theorem extract_number_no_digit (s : String)
    (h : ∀ c ∈ s.toList, c.isDigit = false) : extract_number s = none := by
  unfold extract_number
  apply scanFirstNumber_no_digit
  intro c hc
  rcases List.mem_map.mp hc with ⟨c0, hc0, hmap⟩
  have hc0s : c0 ∈ s.toList :=
    mem_stripCurrencyAux s.toList.length s.toList c0 hc0
  by_cases hcomma : c0 = ','
  · subst hmap
    rw [if_pos hcomma]
    decide
  · subst hmap
    rw [if_neg hcomma]
    exact h c0 hc0s

/-! ## Characterization of the orchestrator loop -/

theorem foldl_stepItem_failed (now : String) (fetch : String → Option ℚ) :
    ∀ (items : List Item) (s : BatchState),
      (List.foldl (stepItem now fetch) s items).failed =
        s.failed + (items.filter (fetchMissed fetch)).length := by
  intro items
  induction items with
  | nil => intro s; simp
  | cons it rest ih =>
    intro s
    simp only [List.foldl_cons]
    rw [ih]
    cases hf : fetch it.url with
    | none =>
      have hm : fetchMissed fetch it = true := by simp [fetchMissed, hf]
      simp [stepItem, hf, List.filter_cons, hm]
      omega
    | some p =>
      have hm : fetchMissed fetch it = false := by simp [fetchMissed, hf]
      by_cases hc : priceChanged it p = true
      · simp [stepItem, hf, hc, List.filter_cons, hm]
      · simp [stepItem, hf, hc, List.filter_cons, hm]

theorem foldl_stepItem_failedUrls (now : String) (fetch : String → Option ℚ) :
    ∀ (items : List Item) (s : BatchState),
      (List.foldl (stepItem now fetch) s items).failedUrls =
        s.failedUrls ++ (items.filter (fetchMissed fetch)).map Item.url := by
  intro items
  induction items with
  | nil => intro s; simp
  | cons it rest ih =>
    intro s
    simp only [List.foldl_cons]
    rw [ih]
    cases hf : fetch it.url with
    | none =>
      have hm : fetchMissed fetch it = true := by simp [fetchMissed, hf]
      simp [stepItem, hf, List.filter_cons, hm]
    | some p =>
      have hm : fetchMissed fetch it = false := by simp [fetchMissed, hf]
      by_cases hc : priceChanged it p = true
      · simp [stepItem, hf, hc, List.filter_cons, hm]
      · simp [stepItem, hf, hc, List.filter_cons, hm]

theorem foldl_stepItem_itemsOut (now : String) (fetch : String → Option ℚ) :
    ∀ (items : List Item) (s : BatchState),
      (List.foldl (stepItem now fetch) s items).itemsOut =
        s.itemsOut ++ items.map (processedItem now fetch) := by
  intro items
  induction items with
  | nil => intro s; simp
  | cons it rest ih =>
    intro s
    simp only [List.foldl_cons]
    rw [ih]
    cases hf : fetch it.url with
    | none =>
      have hp : processedItem now fetch it = it := by simp [processedItem, hf]
      simp [stepItem, hf, hp]
    | some p =>
      have hp : processedItem now fetch it = applyPrice now it p := by
        simp [processedItem, hf]
      by_cases hc : priceChanged it p = true
      · simp [stepItem, hf, hc, hp]
      · simp [stepItem, hf, hc, hp, applyPrice]

theorem foldl_stepItem_updated (now : String) (fetch : String → Option ℚ) :
    ∀ (items : List Item) (s : BatchState),
      (List.foldl (stepItem now fetch) s items).updated =
        s.updated + (items.filter (outcomeUpdated fetch)).length := by
  intro items
  induction items with
  | nil => intro s; simp
  | cons it rest ih =>
    intro s
    simp only [List.foldl_cons]
    rw [ih]
    cases hf : fetch it.url with
    | none =>
      have hu : outcomeUpdated fetch it = false := by simp [outcomeUpdated, hf]
      simp [stepItem, hf, List.filter_cons, hu]
    | some p =>
      by_cases hc : priceChanged it p = true
      · have hu : outcomeUpdated fetch it = true := by
          simp [outcomeUpdated, hf, hc]
        simp [stepItem, hf, hc, List.filter_cons, hu]
        omega
      · have hu : outcomeUpdated fetch it = false := by
          simp [outcomeUpdated, hf]
          simpa using hc
        simp [stepItem, hf, hc, List.filter_cons, hu]

theorem foldl_stepItem_unchangedCount (now : String)
    (fetch : String → Option ℚ) :
    ∀ (items : List Item) (s : BatchState),
      (List.foldl (stepItem now fetch) s items).unchangedCount =
        s.unchangedCount + (items.filter (outcomeUnchanged fetch)).length := by
  intro items
  induction items with
  | nil => intro s; simp
  | cons it rest ih =>
    intro s
    simp only [List.foldl_cons]
    rw [ih]
    cases hf : fetch it.url with
    | none =>
      have hu : outcomeUnchanged fetch it = false := by
        simp [outcomeUnchanged, hf]
      simp [stepItem, hf, List.filter_cons, hu]
    | some p =>
      by_cases hc : priceChanged it p = true
      · have hu : outcomeUnchanged fetch it = false := by
          simp [outcomeUnchanged, hf, hc]
        simp [stepItem, hf, hc, List.filter_cons, hu]
      · have hu : outcomeUnchanged fetch it = true := by
          simp [outcomeUnchanged, hf]
          simpa using hc
        simp [stepItem, hf, hc, List.filter_cons, hu]
        omega

/-- Lists with a member satisfying a predicate are the lists whose
filtrate is nonempty. -/
theorem filter_length_pos_iff (p : α → Bool) :
    ∀ (l : List α), 0 < (l.filter p).length ↔ ∃ x ∈ l, p x = true := by
  intro l
  induction l with
  | nil => simp
  | cons a t ih =>
    by_cases hp : p a = true
    · simp [List.filter_cons, hp]
    · simp [List.filter_cons, hp, ih]

/-! ## The claims -/

/-- Claim C1, counterexample.  A run over one item whose static fetch
succeeds (the page comes back) but on which every extraction strategy
misses: fetch_price returns none, and the orchestrator increments the
failed counter and appends the URL to the failure list, contrary to
the claim that an extraction miss is not classified as Failed. -/
theorem C1_counterexample :
    envExtractionMiss.staticPage = some soupEmptyPage
    ∧ fetch_price envExtractionMiss "shop.example.com" = none
    ∧ (runBatch "T" (fun _ => fetch_price envExtractionMiss "shop.example.com")
        [itemA]).failed = 1
    ∧ (runBatch "T" (fun _ => fetch_price envExtractionMiss "shop.example.com")
        [itemA]).failedUrls = ["https://a.example/p"]
    ∧ (runBatch "T" (fun _ => fetch_price envExtractionMiss "shop.example.com")
        [itemA]).unchangedCount = 0 := by
  refine ⟨rfl, by decide, by decide, by decide, by decide⟩

/-- Claim C1, amended: the orchestrator cannot separate an extraction
miss from a fetch failure, because fetch_price returns None for both.
Every item whose fetch_price observation is None is classified as
Failed: the failed counter counts exactly those items, the failure list
holds exactly their URLs in order, every item in the store after the
run is its processed image, and an item with a None observation passes
through the store untouched. -/
theorem C1_miss_counted_as_failed :
    ∀ (now : String) (fetch : String → Option ℚ) (items : List Item),
      (runBatch now fetch items).failed =
        (items.filter (fetchMissed fetch)).length
      ∧ (runBatch now fetch items).failedUrls =
        (items.filter (fetchMissed fetch)).map Item.url
      ∧ (runBatch now fetch items).itemsOut =
        items.map (processedItem now fetch)
      ∧ ∀ (it : Item), fetch it.url = none → processedItem now fetch it = it := by
  intro now fetch items
  refine ⟨?_, ?_, ?_, ?_⟩
  · simpa [runBatch] using foldl_stepItem_failed now fetch items ⟨0, 0, 0, [], []⟩
  · simpa [runBatch] using foldl_stepItem_failedUrls now fetch items ⟨0, 0, 0, [], []⟩
  · simpa [runBatch] using foldl_stepItem_itemsOut now fetch items ⟨0, 0, 0, [], []⟩
  · intro it hf
    simp [processedItem, hf]

/-- Witness for C1 at a concrete input. -/
theorem C1_witness :
    processedItem "T" (fun _ => none) itemA = itemA :=
  (C1_miss_counted_as_failed "T" (fun _ => none) []).2.2.2 itemA rfl

/-- Claim C2: the diff engine leaves the item untouched exactly when
the extracted price equals the stored current price under exact
equality, and otherwise moves the old current price into
previous_price, stores the extracted value and stamps
last_price_change, all together; a first observation keeps
previous_price unset. -/
theorem C2_diff_engine :
    ∀ (it : Item) (p : ℚ) (now : String),
      (it.current_price = some p → applyPrice now it p = it)
      ∧ (it.current_price ≠ some p →
          applyPrice now it p =
            { url := it.url, current_price := some p,
              previous_price := it.current_price,
              last_price_change := some now })
      ∧ applyPrice now
          { url := it.url, current_price := none,
            previous_price := none, last_price_change := none } 150 =
          { url := it.url, current_price := some 150,
            previous_price := none, last_price_change := some now } := by
  intro it p now
  refine ⟨?_, ?_, ?_⟩
  · intro h
    simp [applyPrice, priceChanged, h]
  · intro h
    simp [applyPrice, priceChanged, h]
  · simp [applyPrice, priceChanged]

/-- Witness for C2 at a concrete input. -/
theorem C2_witness :
    applyPrice "T" itemB 200 = itemB :=
  (C2_diff_engine itemB 200 "T").1 rfl

/-- Claim C3: in the batch over the three items where the fetch of A
throws, B extracts its stored price and C extracts a different price,
the run yields total 3, one update, one unchanged item, one failure
with the URL of A, the records of B and C are exactly what a run
without A would produce, and exactly one summary notification is made
carrying total 3, succeeded 2, failed 1 and the URL of A. -/
theorem C3_batch_scenario :
    (runJob true "T" fetchABC [itemA, itemB, itemC]).1 =
      { updated := 1, failed := 1, unchangedCount := 1,
        failedUrls := ["https://a.example/p"],
        itemsOut := [itemA, itemB,
          { url := "https://c.example/p", current_price := some 120,
            previous_price := some 100, last_price_change := some "T" }] }
    ∧ [itemA, itemB, itemC].length = 3
    ∧ (runJob true "T" fetchABC [itemA, itemB, itemC]).2.length = 1
    ∧ (runJob true "T" fetchABC [itemA, itemB, itemC]).2 =
      [{ total := 3, succeeded := 2, failed := 1,
         listedFailedUrls := ["https://a.example/p"], omittedCount := 0 }]
    ∧ (runJob true "T" fetchABC [itemA, itemB, itemC]).1.itemsOut =
      itemA :: (runJob true "T" fetchABC [itemB, itemC]).1.itemsOut := by
  refine ⟨by decide, by decide, by decide, by decide, by decide⟩

/-- Claim C4: the normalizer turns 199,00 kr into 199, kr 199 into
199, the dollar amount 199.99 into 199.99, returns none on a text
without digits, and in general returns none on any text containing no
digit at all. -/
theorem C4_normalizer :
    extract_number "199,00 kr" = some 199
    ∧ extract_number "kr 199" = some 199
    ∧ extract_number "$199.99" = some (mkRat 19999 100)
    ∧ extract_number "no digits here" = none
    ∧ ∀ (s : String), (∀ c ∈ s.toList, c.isDigit = false) →
        extract_number s = none := by
  refine ⟨by decide, by decide, by decide, by decide, ?_⟩
  intro s h
  exact extract_number_no_digit s h

/-- Witness for C4 at a concrete input. -/
theorem C4_witness : extract_number "abc" = none :=
  C4_normalizer.2.2.2.2 "abc" (by decide)

/-- Claim C5: the recursive embedded-state search cuts off at depth 10
(any call at depth above 10 returns none, and the recursion budget of
the model is inert from 12 - depth upward, so termination does not
depend on the structure size); a price key living at nesting level 12
of a document nested 50 levels deep is not found while one at level 3
is found; list entries are searched only up to the first 20 per list,
and lists are entered only while the recursion depth is below 5. -/
theorem C5_depth_bounds :
    (∀ (kvs : List (String × Json)) (d : Nat), 10 < d →
      find_price_in_dict kvs d = none)
    ∧ find_price_in_dict
        [("a", nestK 10 (Json.obj [("price", Json.num 42), ("b", deepChain 38)]))]
        0 = none
    ∧ find_price_in_dict [("a", nestK 1 (Json.obj [("price", Json.num 42)]))] 0 =
        some 42
    ∧ find_price_in_dict
        [("x", Json.arr (List.replicate 19 Json.null ++
          [Json.obj [("price", Json.num 7)]]))] 0 = some 7
    ∧ find_price_in_dict
        [("x", Json.arr (List.replicate 20 Json.null ++
          [Json.obj [("price", Json.num 7)]]))] 0 = none
    ∧ find_price_in_dict
        [("a", nestK 3 (Json.obj [("x", Json.arr [Json.obj [("price", Json.num 7)]])]))]
        0 = some 7
    ∧ find_price_in_dict
        [("a", nestK 4 (Json.obj [("x", Json.arr [Json.obj [("price", Json.num 7)]])]))]
        0 = none
    ∧ (∀ (f1 f2 : Nat) (kvs : List (String × Json)) (d : Nat),
        12 - d ≤ f1 → 12 - d ≤ f2 →
        findPriceAux f1 kvs d = findPriceAux f2 kvs d) := by
  refine ⟨?_, by decide, by decide, by decide, by decide, by decide, by decide,
    findPriceAux_fuel⟩
  intro kvs d hd
  unfold find_price_in_dict
  by_cases h0 : 12 - d = 0
  · rw [h0]
    rfl
  · have h1 : 12 - d = 1 := by omega
    rw [h1]
    simp [findPriceAux, hd]

/-- Witness for C5 at a concrete input. -/
theorem C5_witness : find_price_in_dict [] 11 = none :=
  C5_depth_bounds.1 [] 11 (by decide)

/-- Claim C6: the structured-data strategy reads a price from a nested
offers object with a string price of 49.90, takes the second entry of a
block list when only that entry has valid offers, prefers a direct
price field over offers, and takes the first entry when offers itself
is a list. -/
theorem C6_structured_data :
    extract_from_jsonld
      [some (Json.obj [("offers", Json.obj [("price", Json.str "49.90")])])] =
      some (mkRat 4990 100)
    ∧ extract_from_jsonld
      [some (Json.arr [Json.obj [("name", Json.str "x")],
        Json.obj [("offers", Json.obj [("price", Json.num 25)])]])] = some 25
    ∧ extract_from_jsonld
      [some (Json.obj [("price", Json.num 10),
        ("offers", Json.obj [("price", Json.num 20)])])] = some 10
    ∧ extract_from_jsonld
      [some (Json.obj [("offers", Json.arr [Json.obj [("price", Json.num 15)],
        Json.obj [("price", Json.num 16)]])])] = some 15 := by
  refine ⟨by decide, by decide, by decide, by decide⟩

/-- Claim C7: on a page where a unit-suffix marker sits next to the
numeric fragments 0, 22 and 90, the fragmented multi-span strategy
returns 22.90: the suffix fragment is excluded, the pair starting with
0 is skipped, the pair 22 and 90 is combined as whole and decimal and
passes the range check from 1 up to 10000; a pair list starting with 0
followed by a single other fragment yields nothing, and a leading 00
is skipped the same way. -/
theorem C7_fragmented_spans :
    scrape_willys soupWillys = some (mkRat 229 10)
    ∧ willysCombine ["0", "22", "90"] = some (mkRat 229 10)
    ∧ willysCombine ["00", "22", "90"] = some (mkRat 229 10)
    ∧ willysScanPairs ["0", "5"] = none := by
  refine ⟨by decide, by decide, by decide, by decide⟩

/-- Claim C8, counterexample.  A willys.se URL fetched with the browser
enabled: the rendered markup carries a structured-data block whose scan
would yield the price 49.90, yet fetch_price returns none, because the
rendered branch runs only the dedicated heuristic and never the
structured-data or embedded-state scans on the rendered markup. -/
theorem C8_counterexample :
    envRendered.useBrowser = true
    ∧ envRendered.renderedPage = some soupRendered
    ∧ truthyQ (extract_from_jsonld soupRendered.jsonldScripts) =
        some (mkRat 499 10)
    ∧ fetch_price envRendered "www.willys.se" = none := by
  refine ⟨rfl, rfl, by decide, by decide⟩

/-- Claim C8, amended: a domain on the rendered allowlist with browser
use enabled routes the rendered markup only to the dedicated willys
heuristic; when the rendering capability yields no content the whole
static branch runs instead; every other URL takes the static branch,
which applies the structured-data scan, then the embedded-state scan,
then the registered domain heuristic, then the generic fallback,
returning the first truthy price. -/
theorem C8_routing :
    ∀ (env : ScrapeEnv) (domain : String) (soup : Soup) (p : ℚ),
      (containsStr domain "willys.se" = true → env.useBrowser = true →
        env.renderedPage = some soup →
        fetch_price env domain = scrape_willys soup)
      ∧ (containsStr domain "willys.se" = true → env.useBrowser = true →
        env.renderedPage = none →
        fetch_price env domain = staticPipeline env.staticPage domain)
      ∧ ((containsStr domain "willys.se" = false ∨ env.useBrowser = false) →
        fetch_price env domain = staticPipeline env.staticPage domain)
      ∧ (truthyQ (extract_from_jsonld soup.jsonldScripts) = some p →
        staticPipeline (some soup) domain = some p)
      ∧ (truthyQ (extract_from_jsonld soup.jsonldScripts) = none →
        truthyQ (extract_from_nextjs_data soup.embeddedBlobs) = some p →
        staticPipeline (some soup) domain = some p)
      ∧ (truthyQ (extract_from_jsonld soup.jsonldScripts) = none →
        truthyQ (extract_from_nextjs_data soup.embeddedBlobs) = none →
        containsStr domain "jula.se" = true →
        staticPipeline (some soup) domain = scrape_jula soup)
      ∧ (truthyQ (extract_from_jsonld soup.jsonldScripts) = none →
        truthyQ (extract_from_nextjs_data soup.embeddedBlobs) = none →
        containsStr domain "jula.se" = false →
        containsStr domain "willys.se" = true →
        staticPipeline (some soup) domain = scrape_willys soup)
      ∧ (truthyQ (extract_from_jsonld soup.jsonldScripts) = none →
        truthyQ (extract_from_nextjs_data soup.embeddedBlobs) = none →
        containsStr domain "jula.se" = false →
        containsStr domain "willys.se" = false →
        staticPipeline (some soup) domain = scrape_generic soup) := by
  intro env domain soup p
  refine ⟨?_, ?_, ?_, ?_, ?_, ?_, ?_, ?_⟩
  · intro h1 h2 h3
    simp [fetch_price, h1, h2, h3]
  · intro h1 h2 h3
    simp [fetch_price, h1, h2, h3]
  · intro h
    rcases h with h | h
    · simp [fetch_price, h]
    · simp [fetch_price, h]
  · intro hj
    simp [staticPipeline, hj]
  · intro hj hn
    simp [staticPipeline, hj, hn]
  · intro hj hn hd
    simp [staticPipeline, hj, hn, hd]
  · intro hj hn hdj hdw
    simp [staticPipeline, hj, hn, hdj, hdw]
  · intro hj hn hdj hdw
    simp [staticPipeline, hj, hn, hdj, hdw]

/-- Witness for C8 at a concrete input. -/
theorem C8_witness :
    fetch_price envRendered "www.willys.se" = scrape_willys soupRendered :=
  (C8_routing envRendered "www.willys.se" soupRendered 1).1 (by decide) rfl rfl

/-- Claim C9: with a notifier configured, a run posts a summary exactly
when some item failed, and the summary lists the first ten failed URLs,
reports how many further failed URLs were omitted, and carries the
total, the succeeded count and the failed count of the run. -/
theorem C9_summary_notification :
    ∀ (now : String) (fetch : String → Option ℚ) (items : List Item),
      ((runJob true now fetch items).2 ≠ [] ↔
        ∃ it ∈ items, fetch it.url = none)
      ∧ ∀ smry ∈ (runJob true now fetch items).2,
          smry.listedFailedUrls =
            (runJob true now fetch items).1.failedUrls.take 10
          ∧ smry.listedFailedUrls.length ≤ 10
          ∧ smry.omittedCount =
            (runJob true now fetch items).1.failedUrls.length -
              smry.listedFailedUrls.length
          ∧ smry.total = items.length
          ∧ smry.failed = (runJob true now fetch items).1.failed
          ∧ smry.succeeded =
            items.length - (runJob true now fetch items).1.failed := by
  intro now fetch items
  have hfail : (runBatch now fetch items).failed =
      (items.filter (fetchMissed fetch)).length := by
    simpa [runBatch] using foldl_stepItem_failed now fetch items ⟨0, 0, 0, [], []⟩
  have hiff : 0 < (runBatch now fetch items).failed ↔
      ∃ it ∈ items, fetch it.url = none := by
    rw [hfail, filter_length_pos_iff]
    constructor
    · rintro ⟨it, hmem, hit⟩
      exact ⟨it, hmem, by simpa [fetchMissed, Option.isNone_iff_eq_none] using hit⟩
    · rintro ⟨it, hmem, hit⟩
      exact ⟨it, hmem, by simp [fetchMissed, hit]⟩
  have hnot : (runJob true now fetch items).2 =
      if 0 < (runBatch now fetch items).failed then
        [{ total := items.length,
           succeeded := items.length - (runBatch now fetch items).failed,
           failed := (runBatch now fetch items).failed,
           listedFailedUrls := (runBatch now fetch items).failedUrls.take 10,
           omittedCount :=
             if 10 < (runBatch now fetch items).failedUrls.length then
               (runBatch now fetch items).failedUrls.length - 10
             else 0 }]
      else [] := by
    simp [runJob, summaryNotifications]
  have hst : (runJob true now fetch items).1 = runBatch now fetch items := rfl
  constructor
  · rw [hnot]
    by_cases hc : 0 < (runBatch now fetch items).failed
    · rw [if_pos hc]
      exact ⟨fun _ => hiff.mp hc, fun _ => by simp⟩
    · rw [if_neg hc]
      exact ⟨fun h => absurd rfl h, fun hex => absurd (hiff.mpr hex) hc⟩
  · intro smry hmem
    rw [hnot] at hmem
    by_cases hc : 0 < (runBatch now fetch items).failed
    · rw [if_pos hc] at hmem
      have hs := List.mem_singleton.mp hmem
      subst hs
      refine ⟨by simp [hst], by simp [List.length_take], ?_, by simp,
        by simp [hst], by simp [hst]⟩
      simp only [hst, List.length_take]
      by_cases h10 : 10 < (runBatch now fetch items).failedUrls.length
      · rw [if_pos h10]
        omega
      · rw [if_neg h10]
        omega
    · rw [if_neg hc] at hmem
      exact absurd hmem (List.not_mem_nil smry)

/-- Witness for C9 at a concrete input. -/
theorem C9_witness :
    (⟨1, 0, 1, ["https://a.example/p"], 0⟩ : Summary).listedFailedUrls =
      (runJob true "T" (fun _ => none) [itemA]).1.failedUrls.take 10 :=
  ((C9_summary_notification "T" (fun _ => none) [itemA]).2
    ⟨1, 0, 1, ["https://a.example/p"], 0⟩ (by decide)).1

/-- Claim C10, counterexample.  A page on a generic domain whose price
meta tag carries the content 0: the generic scraper converts it with
the float builtin without a truthiness guard and fetch_price returns
the price 0, contrary to the claim that a zero price is never
returned. -/
theorem C10_counterexample :
    envMetaZero.staticPage = some soupMetaZero
    ∧ soupMetaZero.metaPriceContent = some "0"
    ∧ fetch_price envMetaZero "shop.example.com" = some 0 := by
  refine ⟨rfl, rfl, by decide⟩

/-- Claim C10, amended: the structured-data and embedded-state
strategies never return a zero price, because their returns sit behind
truthiness checks; but the recursive search returns a directly matched
numeric zero to its caller, and the meta-tag conversions in the domain
scrapers return zero unguarded, so a meta content of 0 on a generic
domain makes fetch_price return the price 0. -/
theorem C10_zero_price :
    (∀ (scripts : List (Option Json)) (q : ℚ),
      extract_from_jsonld scripts = some q → q ≠ 0)
    ∧ (∀ (blobs : List (Option Json)) (q : ℚ),
      extract_from_nextjs_data blobs = some q → q ≠ 0)
    ∧ find_price_in_dict [("price", Json.num 0)] 0 = some 0
    ∧ scrape_generic soupMetaZero = some 0
    ∧ fetch_price envMetaZero "shop.example.com" = some 0 := by
  refine ⟨extract_from_jsonld_ne_zero, extract_from_nextjs_data_ne_zero,
    by decide, by decide, by decide⟩

/-- Witness for C10 at a concrete input. -/
theorem C10_witness :
    extract_from_jsonld [some (Json.obj [("price", Json.num 5)])] = some 5
    ∧ (5 : ℚ) ≠ 0 :=
  ⟨by decide, C10_zero_price.1 [some (Json.obj [("price", Json.num 5)])] 5 (by decide)⟩


end Prisbevakaren
